import Mathlib

/-!
Verification of the MetalLB UPnP IGD core: a shallow embedding of
`internal/upnp/client.go` (protocol client) and `speaker/upnp_controller.go`
(mapping lifecycle manager and election policy), with theorems settling the
behavioural claims of the specification.

Device and cluster interactions are modelled by explicit oracles (functions
from request parameters to responses) and by traces of the actions issued, so
that "no network call is made" and "deletion was attempted before creation"
become provable statements.
-/

/-- Decidable equality of `Except` results, needed to evaluate theorems about
fallible operations on concrete inputs. -/
instance {ε α : Type} [DecidableEq ε] [DecidableEq α] : DecidableEq (Except ε α) := fun a b =>
  match a, b with
  | .ok x, .ok y =>
    if h : x = y then .isTrue (by rw [h]) else .isFalse (by intro hc; cases hc; exact h rfl)
  | .error x, .error y =>
    if h : x = y then .isTrue (by rw [h]) else .isFalse (by intro hc; cases hc; exact h rfl)
  | .ok _, .error _ => .isFalse (by intro hc; cases hc)
  | .error _, .ok _ => .isFalse (by intro hc; cases hc)

namespace MlbUpnp

/-! ## String utilities mirroring the Go standard library -/

/-- Does `p` occur as a literal leading segment of `s`? (helper for
`strContains`). -/
def matchesAt : List Char → List Char → Bool
  | [], _ => true
  | _ :: _, [] => false
  | a :: p, b :: s => a == b && matchesAt p s

/-- Does `p` occur as a contiguous subsequence of `s`? (helper for
`strContains`). -/
def containsSeq (p : List Char) : List Char → Bool
  | [] => matchesAt p []
  | b :: s => matchesAt p (b :: s) || containsSeq p s

/-- Models Go `strings.Contains(s, pat)`. -/
def strContains (s pat : String) : Bool :=
  containsSeq pat.data s.data

/-- ASCII upper-casing of one character (helper for `goToUpper`). -/
def chUpper (c : Char) : Char :=
  if 97 ≤ c.toNat ∧ c.toNat ≤ 122 then Char.ofNat (c.toNat - 32) else c

/-- ASCII lower-casing of one character (helper for `goToLower`). -/
def chLower (c : Char) : Char :=
  if 65 ≤ c.toNat ∧ c.toNat ≤ 90 then Char.ofNat (c.toNat + 32) else c

/-- Models Go `strings.ToUpper` (all inputs in this system are ASCII). -/
def goToUpper (s : String) : String :=
  String.mk (s.data.map chUpper)

/-- Models Go `strings.ToLower` (all inputs in this system are ASCII). -/
def goToLower (s : String) : String :=
  String.mk (s.data.map chLower)

/-- Split a character list at every occurrence of `sep` (helper for
`goSplit`). -/
def splitOnChar (sep : Char) : List Char → List (List Char)
  | [] => [[]]
  | c :: rest =>
    if c == sep then [] :: splitOnChar sep rest
    else
      match splitOnChar sep rest with
      | [] => [[c]]
      | h :: t => (c :: h) :: t

/-- Models Go `strings.Split(s, sep)` for a one-character separator. -/
def goSplit (s : String) (sep : Char) : List String :=
  (splitOnChar sep s.data).map String.mk

/-- Numeric value of a digit list (helper for `parseDecNat`). -/
def digitsVal : List Char → Nat → Nat
  | [], acc => acc
  | c :: rest, acc => digitsVal rest (acc * 10 + (c.toNat - 48))

/-- Parse a nonempty all-digit list as a decimal number. -/
def parseDecNat (l : List Char) : Option Nat :=
  if l ≠ [] ∧ l.all Char.isDigit then some (digitsVal l 0) else none

/-- Models Go `strconv.Atoi`: optional sign, then at least one digit.
(Go's range error on values outside the int range is not modelled; the
durations this system handles are far below it.) -/
def goAtoi (s : String) : Option Int :=
  match s.data with
  | '-' :: rest => (parseDecNat rest).map (fun n => -(n : Int))
  | '+' :: rest => (parseDecNat rest).map (fun n => (n : Int))
  | l => (parseDecNat l).map (fun n => (n : Int))

/-- Lexicographic comparison of character lists by code point (helper for
`goStrLt`). On UTF-8 data this coincides with Go's byte-wise `<` on strings,
since UTF-8 encoding preserves code-point order. -/
def chListLt : List Char → List Char → Bool
  | [], [] => false
  | [], _ :: _ => true
  | _ :: _, [] => false
  | a :: as, b :: bs =>
    if a.toNat < b.toNat then true
    else if a.toNat = b.toNat then chListLt as bs
    else false

/-- Models Go's `<` on strings. -/
def goStrLt (a b : String) : Bool :=
  chListLt a.data b.data

/-- Models Go's `<=` on strings. -/
def goStrLe (a b : String) : Bool :=
  !(goStrLt b a)

/-! ## Device errors as seen through the goupnp library

The goupnp library (an external collaborator of this code) surfaces a failed
SOAP action either as a transport error or as a SOAP fault carrying the
device's structured UPnP error code and error description; its `Error()`
rendering interpolates the structured fields into one human-readable string.
`client.go` only ever inspects that rendered string. -/

inductive DevError where
  /-- a network/transport failure with a free-text message -/
  | transport (msg : String)
  /-- a structured device fault: numeric UPnP error code plus the
  device-supplied free-text error description -/
  | soapFault (errorCode : Nat) (errorDescription : String)
deriving DecidableEq, Repr

/-- Models the `Error()` string goupnp hands back to `client.go`: for SOAP
faults the rendered detail embeds the structured error code and the
device-supplied description text. -/
def DevError.errString : DevError → String
  | .transport msg => msg
  | .soapFault errorCode errorDescription =>
      "SOAP fault. Code: s:Client | Explanation: UPnPError | Detail: <UPnPError><errorCode>"
        ++ toString errorCode ++ "</errorCode><errorDescription>"
        ++ errorDescription ++ "</errorDescription></UPnPError>"

/-! ## Protocol client (`internal/upnp/client.go`) -/

/-- `PortMapping` (client.go lines 26-33). `InternalIP` is kept as the string
the Go code would send on the wire; `Duration` in seconds, `0` = permanent. -/
structure PortMapping where
  externalPort : Nat
  internalPort : Nat
  internalIP : String
  protocol : String
  description : String
  duration : Nat
deriving DecidableEq, Repr

/-- One SOAP control action issued to the device, with the parameters as sent
(ports cast to uint16, duration cast to uint32, protocol upper-cased). -/
inductive DevAction where
  | addCall (externalPort : Nat) (protocol : String) (internalPort : Nat)
      (internalClient : String) (description : String) (duration : Nat)
  | delCall (externalPort : Nat) (protocol : String)
  | getEntryCall (idx : Nat)
deriving DecidableEq, Repr

/-- The add action `AddPortMapping` issues for a mapping, with parameters as
sent on the wire (client.go lines 147-167). -/
def addActOf (m : PortMapping) : DevAction :=
  .addCall (m.externalPort % 65536) (goToUpper m.protocol) (m.internalPort % 65536)
    m.internalIP m.description (m.duration % 4294967296)

/-- The delete action `DeletePortMapping` issues for a recorded mapping, with
parameters as sent on the wire (client.go lines 202-212). -/
def delActOf (m : PortMapping) : DevAction :=
  .delCall (m.externalPort % 65536) (goToUpper m.protocol)

/-- Classification used by `DeletePortMapping` (client.go lines 219-220):
substring search over the rendered error text. -/
def isNoSuchEntryErr (errText : String) : Bool :=
  strContains errText "NoSuchEntryInArray" || strContains errText "SpecifiedArrayIndexInvalid"

/-- Classification used by `GetPortMappings` (client.go lines 269-270):
substring search over the rendered error text. -/
def isEndOfListErr (errText : String) : Bool :=
  strContains errText "SpecifiedArrayIndexInvalid" || strContains errText "NoSuchEntryInArray"

/-- `AddPortMapping` (client.go lines 125-185). The device is modelled by
`addResp`, giving the device's response to the add action for a mapping
(`none` = success). A `nil` Go pointer argument is modelled by `none`.
Returns the Go result together with the trace of device actions issued. -/
def AddPortMapping (addResp : PortMapping → Option DevError)
    (mapping : Option PortMapping) : Except String Unit × List DevAction :=
  match mapping with
  | none => (.error "port mapping cannot be nil", [])
  | some m =>
    let protocol := goToUpper m.protocol
    if protocol ≠ "TCP" ∧ protocol ≠ "UDP" then
      (.error ("invalid protocol: " ++ m.protocol ++ " (must be TCP or UDP)"), [])
    else
      let act := addActOf m
      match addResp m with
      | none => (.ok (), [act])
      | some e => (.error ("failed to add port mapping: " ++ e.errString), [act])

/-- `DeletePortMapping` (client.go lines 188-238). The device is modelled by
`delResp : sent port → sent protocol → response` (`none` = success). A fault
whose rendered text contains one of the two marker strings is swallowed
(mapping already absent); returns result plus trace of device actions. -/
def DeletePortMapping (delResp : Nat → String → Option DevError)
    (externalPort : Nat) (protocol : String) : Except String Unit × List DevAction :=
  let protocolU := goToUpper protocol
  if protocolU ≠ "TCP" ∧ protocolU ≠ "UDP" then
    (.error ("invalid protocol: " ++ protocol ++ " (must be TCP or UDP)"), [])
  else
    let sentPort := externalPort % 65536
    let act := DevAction.delCall sentPort protocolU
    match delResp sentPort protocolU with
    | none => (.ok (), [act])
    | some e =>
      if isNoSuchEntryErr e.errString then (.ok (), [act])
      else (.error ("failed to delete port mapping: " ++ e.errString), [act])

/-- Decimal IPv4 field: 1-3 digits, value ≤ 255, no leading zero (helper for
`parseIPv4ok`). -/
def ipv4FieldOk (s : String) : Bool :=
  s.length ≥ 1 && s.length ≤ 3 && s.data.all Char.isDigit
    && (s.length = 1 || s.data.head? ≠ some '0')
    && (parseDecNat s.data).getD 256 ≤ 255

/-- Models Go `net.ParseIP` succeeding, restricted to the dotted-quad IPv4
shape this system produces; other strings are treated as unparseable
(`ParseIP` = nil). Only used to decide whether an enumerated entry's internal
address parses (client.go lines 277-278). -/
def parseIPv4ok (s : String) : Bool :=
  let parts := goSplit s '.'
  parts.length = 4 && parts.all ipv4FieldOk

/-- The device's answer to one `GetGenericPortMappingEntry(index)` query
(client.go lines 257-262): either a full entry or an error. -/
inductive EntryResult where
  | entry (externalPort : Nat) (protocol : String) (internalPort : Nat)
      (internalClient : String) (enabled : Bool) (description : String)
      (leaseDuration : Nat)
  | fault (e : DevError)
deriving DecidableEq, Repr

/-- The mapping `GetPortMappings` builds from one enabled, parseable entry
(client.go lines 279-286). -/
def entryToMapping (externalPort : Nat) (protocol : String) (internalPort : Nat)
    (internalClient : String) (description : String) (leaseDuration : Nat) : PortMapping :=
  { externalPort := externalPort, internalPort := internalPort,
    internalIP := internalClient, protocol := protocol,
    description := description, duration := leaseDuration }

/-- Loop body of `GetPortMappings` (client.go lines 245-295). `entryResp`
models the device's response per index. The structural counter `fuel`
stands for `1000 - index`, so `fuel = 0` is exactly the source's
`index++; if index > 1000 { break }` safety stop. Returns the Go result
together with the trace of entry queries issued. -/
def getPortMappingsLoop (entryResp : Nat → EntryResult) :
    Nat → Nat → List PortMapping → Except String (List PortMapping) × List DevAction
  | index, fuel, acc =>
    match entryResp index with
    | .fault e =>
      if isEndOfListErr e.errString then
        -- end of list reached
        (.ok acc, [.getEntryCall index])
      else
        (.error ("failed to get port mapping entry " ++ toString index ++ ": " ++ e.errString),
          [.getEntryCall index])
    | .entry externalPort protocol internalPort internalClient enabled description leaseDuration =>
      let acc' :=
        if enabled && parseIPv4ok internalClient then
          acc ++ [entryToMapping externalPort protocol internalPort internalClient description leaseDuration]
        else acc
      match fuel with
      | 0 => (.ok acc', [.getEntryCall index])  -- safety limit hit
      | fuel' + 1 =>
        let r := getPortMappingsLoop entryResp (index + 1) fuel' acc'
        (r.1, .getEntryCall index :: r.2)

/-- `GetPortMappings` (client.go lines 241-299): enumerate the device's
mapping table from index 0. -/
def GetPortMappings (entryResp : Nat → EntryResult) :
    Except String (List PortMapping) × List DevAction :=
  getPortMappingsLoop entryResp 0 1000 []

/-! ## Gateway discovery (`internal/upnp/client.go` lines 36-91) -/

/-- A goupnp WANIPConnection client handle as returned by discovery; only its
reported location matters here. -/
structure GoupnpClient where
  location : String
deriving DecidableEq, Repr

/-- `discoverIGD2` (client.go lines 60-74): `clients` is the list the goupnp
library returns, in the order the devices answered; the code takes
`clients[0]`. -/
def discoverIGD2 (clients : List GoupnpClient) : Except String GoupnpClient :=
  match clients with
  | [] => .error "no IGD2 devices found"
  | c :: _ => .ok c

/-- `discoverIGD1` (client.go lines 77-91): same selection, protocol
version 1. -/
def discoverIGD1 (clients : List GoupnpClient) : Except String GoupnpClient :=
  match clients with
  | [] => .error "no IGD1 devices found"
  | c :: _ => .ok c

/-- The discovery phase of `New` (client.go lines 41-49): IGD2 first, falling
back to IGD1; result carries the negotiated protocol version. -/
def discoverDevice (clients2 clients1 : List GoupnpClient) :
    Except String (Nat × GoupnpClient) :=
  match discoverIGD2 clients2 with
  | .ok c => .ok (2, c)
  | .error _ =>
    match discoverIGD1 clients1 with
    | .ok c => .ok (1, c)
    | .error _ => .error "failed to discover UPnP IGD device"

/-! ## Cluster-side data (`speaker/upnp_controller.go`) -/

/-- Read access to a Go map with string keys, modelled as an association
list (keys assumed distinct, as in a map). -/
def lookupStr {α : Type} : List (String × α) → String → Option α
  | [], _ => none
  | (k, v) :: rest, key => if k = key then some v else lookupStr rest key

/-- Remove a key from a Go map (`delete(m, k)`). -/
def eraseKey {α : Type} (l : List (String × α)) (k : String) : List (String × α) :=
  l.filter (fun p => p.1 ≠ k)

/-- Assign a key in a Go map (`m[k] = v`). -/
def setKey {α : Type} (l : List (String × α)) (k : String) (v : α) : List (String × α) :=
  eraseKey l k ++ [(k, v)]

/-- One entry of a node's `Status.Conditions`; `status` is the Go string
`"True"` / `"False"` / `"Unknown"`. -/
structure NodeCondition where
  condType : String
  status : String
deriving DecidableEq, Repr

/-- The parts of a `v1.Node` this code reads: status conditions and the set
of label keys present. -/
structure Node where
  conditions : List NodeCondition
  labels : List String
deriving DecidableEq, Repr

/-- `isNodeReady` (upnp_controller.go lines 314-321): the first `Ready`
condition decides; no such condition means not ready. -/
def isNodeReady (n : Node) : Bool :=
  match n.conditions.find? (fun c => c.condType == "Ready") with
  | some c => c.status == "True"
  | none => false

/-- `isNodeExcludedFromBalancers` (upnp_controller.go lines 323-330): presence
of the exclusion label key. -/
def isNodeExcludedFromBalancers (n : Node) : Bool :=
  n.labels.contains "node.kubernetes.io/exclude-from-external-load-balancers"

/-- Modelled from the spec: the repository's `internal/config` package (which
defines `config.Pool.UPnPAdvertisements`) is not among the provided sources;
per the spec's data model an `AdvertisementConfig` is
`{ enabled: bool, allowedNodes: set of node name }`, the set being rendered
here as a duplicate-free-by-intent list of names. -/
structure UPnPAdv where
  enabled : Bool
  nodes : List String
deriving DecidableEq, Repr

/-- Is `nodeName` present in the node snapshot, ready, and not excluded from
balancers? (the eligibility test of upnp_controller.go lines 254-259). -/
def nodeEligible (nodes : List (String × Node)) (nodeName : String) : Bool :=
  match lookupStr nodes nodeName with
  | some node => isNodeReady node && !(isNodeExcludedFromBalancers node)
  | none => false

/-- The contribution of a single advertisement to the eligible list
(upnp_controller.go lines 249-262): a disabled advertisement contributes
nothing (`continue`), an enabled one its eligible allowed nodes. -/
def eligibleFromAdv (nodes : List (String × Node)) (adv : UPnPAdv) : List String :=
  if adv.enabled = false then []
  else adv.nodes.filter (nodeEligible nodes)

/-- One pass of the source's swap sort (upnp_controller.go lines 266-270,
inner loop for a fixed `i`): scan the tail, swapping whenever the current
element at position `i` is larger; returns the value left at position `i`
and the tail contents after the pass. -/
def selMin (x : String) : List String → String × List String
  | [] => (x, [])
  | y :: ys =>
    if goStrLt y x then
      let p := selMin y ys
      (p.1, x :: p.2)
    else
      let p := selMin x ys
      (p.1, y :: p.2)

/-- The source's full swap sort (upnp_controller.go lines 265-271): the outer
loop advances `i`, each iteration being one `selMin` pass over the remainder.
`fuel` counts remaining outer iterations; callers pass the list length, which
suffices because a pass preserves the tail's length. -/
def selSortGo : Nat → List String → List String
  | _, [] => []
  | 0, x :: xs => x :: xs
  | fuel + 1, x :: xs =>
    let p := selMin x xs
    p.1 :: selSortGo fuel p.2

/-- Sort for consistent ordering (upnp_controller.go lines 264-271). -/
def selSort (l : List String) : List String :=
  selSortGo l.length l

/-- `getEligibleNodes` (upnp_controller.go lines 246-274): collect eligible
allowed nodes over all enabled advertisements, then sort. The input list
order of `advs` and of each `adv.nodes` stands for one arbitrary Go map
iteration order. -/
def getEligibleNodes (advs : List UPnPAdv) (nodes : List (String × Node)) : List String :=
  selSort (advs.foldl (fun acc adv => acc ++ eligibleFromAdv nodes adv) [])

/-- The election verdict of `ShouldAnnounce` (upnp_controller.go lines
109-119): the local node acts for the pool iff the eligible list is nonempty
and its first element is the local node. -/
def isAuthoritative (myNode : String) (advs : List UPnPAdv)
    (nodes : List (String × Node)) : Bool :=
  match getEligibleNodes advs nodes with
  | [] => false
  | e :: _ => e == myNode

/-! ## Mapping lifecycle manager (`speaker/upnp_controller.go`) -/

/-- One `v1.ServicePort`: port number and protocol string (e.g. "TCP"). -/
structure ServicePort where
  port : Nat
  protocol : String
deriving DecidableEq, Repr

/-- The parts of a `v1.Service` this code reads: identity, its annotation
map (`annots`, a nil Go map being the empty list), and `Spec.Ports`. -/
structure Service where
  name : String
  ns : String
  annots : List (String × String)
  ports : List ServicePort
deriving DecidableEq, Repr

/-- `isUPnPEnabled` (upnp_controller.go lines 217-228): the enable
annotation must be present with value `"true"` case-insensitively; a nil
annotation map (here: an empty list, on which lookup also fails) means
disabled. -/
def isUPnPEnabled (svc : Service) : Bool :=
  match lookupStr svc.annots "metallb.universe.tf/upnp-enabled" with
  | none => false
  | some enabled => goToLower enabled == "true"

/-- `getPortMappingDescription` (upnp_controller.go lines 292-299). -/
def getPortMappingDescription (svc : Service) (port : ServicePort) : String :=
  match lookupStr svc.annots "metallb.universe.tf/upnp-description" with
  | some desc =>
    if desc ≠ "" then desc ++ " (" ++ svc.name ++ ":" ++ toString port.port ++ ")"
    else "MetalLB LoadBalancer" ++ " (" ++ svc.name ++ ":" ++ toString port.port ++ ")"
  | none => "MetalLB LoadBalancer" ++ " (" ++ svc.name ++ ":" ++ toString port.port ++ ")"

/-- `getPortMappingDuration` (upnp_controller.go lines 301-310):
`strconv.Atoi` is modelled by `goAtoi`; a parse failure or a negative
value falls back to the default 0 (permanent). -/
def getPortMappingDuration (svc : Service) : Nat :=
  match lookupStr svc.annots "metallb.universe.tf/upnp-duration" with
  | some durStr =>
    match goAtoi durStr with
    | some d => if 0 ≤ d then d.toNat else 0
    | none => 0
  | none => 0

/-- The mapping `SetBalancer` builds for one load-balancer IP and one service
port (upnp_controller.go lines 155-162). -/
def mkMapping (svc : Service) (lbIP : String) (port : ServicePort) : PortMapping :=
  { externalPort := port.port, internalPort := port.port, internalIP := lbIP,
    protocol := goToLower port.protocol,
    description := getPortMappingDescription svc port,
    duration := getPortMappingDuration svc }

/-- The device side of the IGD client, as the controller sees it: response
oracles for add and delete actions (`none` = success). -/
structure DevOracle where
  addResp : PortMapping → Option DevError
  delResp : Nat → String → Option DevError

/-- Observable controller behaviour: device actions issued through the
client, and status-change notifications (`onStatusChange`). Log lines and
k8s warning events are not modelled. -/
inductive CtrlEvent where
  | dev (a : DevAction)
  | statusChange (ns : String) (name : String)
deriving DecidableEq, Repr

/-- The controller's bookkeeping table `c.mappings`
(upnp_controller.go line 51): service key → recorded port mappings. -/
abbrev MappingTable : Type := List (String × List PortMapping)

/-- `deleteExistingMappings` (upnp_controller.go lines 276-290): if the key is
recorded, issue a best-effort delete per recorded mapping (failures only
logged) and drop the key. The Go function's error result is always nil, so
only the new table and the event trace are returned. -/
def deleteExistingMappings (dev : DevOracle) (table : MappingTable)
    (name : String) : MappingTable × List CtrlEvent :=
  match lookupStr table name with
  | none => (table, [])
  | some ms =>
    ((eraseKey table name),
      (ms.map (fun m => (DeletePortMapping dev.delResp m.externalPort m.protocol).2.map CtrlEvent.dev)).flatten)

/-- The inner loop of `SetBalancer` over `svc.Spec.Ports` for one
load-balancer IP (upnp_controller.go lines 143-172): skip port 0, skip
unsupported protocols, attempt creation, keep only confirmed mappings. -/
def addMappingsForIP (dev : DevOracle) (svc : Service) (lbIP : String) :
    List ServicePort → List PortMapping × List CtrlEvent
  | [] => ([], [])
  | port :: rest =>
    if port.port = 0 then addMappingsForIP dev svc lbIP rest
    else if goToLower port.protocol ≠ "tcp" ∧ goToLower port.protocol ≠ "udp" then
      addMappingsForIP dev svc lbIP rest
    else
      let m := mkMapping svc lbIP port
      let r := AddPortMapping dev.addResp (some m)
      let rec_ := addMappingsForIP dev svc lbIP rest
      match r.1 with
      | .ok _ => (m :: rec_.1, r.2.map CtrlEvent.dev ++ rec_.2)
      | .error _ => (rec_.1, r.2.map CtrlEvent.dev ++ rec_.2)

/-- The outer loop of `SetBalancer` over the load-balancer IPs
(upnp_controller.go lines 142-173). -/
def buildMappings (dev : DevOracle) (svc : Service) :
    List String → List PortMapping × List CtrlEvent
  | [] => ([], [])
  | lbIP :: rest =>
    let a := addMappingsForIP dev svc lbIP svc.ports
    let b := buildMappings dev svc rest
    (a.1 ++ b.1, a.2 ++ b.2)

/-- `SetBalancer` (upnp_controller.go lines 125-184): if UPnP is not enabled
for the service, return nil immediately; otherwise clean up the recorded
mappings for the key, create the desired ones, store exactly the confirmed
ones, and notify once iff at least one was created. Returns the new table,
the event trace in program order, and the Go error result. -/
def SetBalancer (dev : DevOracle) (table : MappingTable) (name : String)
    (lbIPs : List String) (svc : Service) :
    MappingTable × List CtrlEvent × Except String Unit :=
  if isUPnPEnabled svc = false then (table, [], .ok ())
  else
    let d := deleteExistingMappings dev table name
    let b := buildMappings dev svc lbIPs
    let table' := setKey d.1 name b.1
    let notifyEvs :=
      if b.1.length > 0 then [CtrlEvent.statusChange svc.ns svc.name] else []
    (table', d.2 ++ b.2 ++ notifyEvs, .ok ())

/-- Models `cache.SplitMetaNamespaceKey` of the external client-go library
(split on `/`; one part = name only, two parts = namespace and name, more =
error). -/
def splitMetaNamespaceKey (key : String) : Except String (String × String) :=
  match goSplit key '/' with
  | [nm] => .ok ("", nm)
  | [nsp, nm] => .ok (nsp, nm)
  | _ => .error ("unexpected key format: " ++ key)

/-- `DeleteBalancer` (upnp_controller.go lines 186-204): best-effort delete of
every recorded mapping, clear the record, then notify. (The first early
return cannot fire because `deleteExistingMappings` always returns nil; the
second fires only for a key that is not a well-formed namespace/name key.) -/
def DeleteBalancer (dev : DevOracle) (table : MappingTable) (name : String) :
    MappingTable × List CtrlEvent × Except String Unit :=
  let d := deleteExistingMappings dev table name
  match splitMetaNamespaceKey name with
  | .error e => (d.1, d.2, .error e)
  | .ok (nsp, nm) => (d.1, d.2 ++ [CtrlEvent.statusChange nsp nm], .ok ())

/-- The candidate set of the claim: some enabled advertisement allows the
node, and the node exists in the snapshot, is ready, and is not excluded
from balancers. -/
def IsCandidate (advs : List UPnPAdv) (nodes : List (String × Node)) (n : String) : Prop :=
  ∃ adv ∈ advs, adv.enabled = true ∧ n ∈ adv.nodes ∧
    ∃ nd, lookupStr nodes n = some nd ∧ isNodeReady nd = true ∧
      isNodeExcludedFromBalancers nd = false

/-- The mappings `SetBalancer` attempts to create for one IP: the valid
(nonzero-port, tcp/udp) desired mappings, before consulting the device. -/
def desiredForIP (svc : Service) (lbIP : String) : List ServicePort → List PortMapping
  | [] => []
  | port :: rest =>
    if port.port = 0 then desiredForIP svc lbIP rest
    else if goToLower port.protocol ≠ "tcp" ∧ goToLower port.protocol ≠ "udp" then
      desiredForIP svc lbIP rest
    else mkMapping svc lbIP port :: desiredForIP svc lbIP rest

/-- All mappings `SetBalancer` attempts to create, in attempt order. -/
def desiredMappings (svc : Service) : List String → List PortMapping
  | [] => []
  | lbIP :: rest => desiredForIP svc lbIP svc.ports ++ desiredMappings svc rest

/-- Is this controller event a status-change notification? -/
def isStatusChange : CtrlEvent → Bool
  | .statusChange _ _ => true
  | .dev _ => false

/-- Did the device answer an entry query with an entry (rather than an
error)? -/
def isEntryRes : EntryResult → Bool
  | .entry .. => true
  | .fault _ => false

/-! ## Order facts about the embedded string comparison -/

theorem char_eq_of_toNat_eq {x y : Char} (h : x.toNat = y.toNat) : x = y :=
  Char.ext (UInt32.ext h)

theorem str_eq_of_data_eq {a b : String} (h : a.data = b.data) : a = b := by
  cases a
  cases b
  exact congrArg String.mk h

theorem chListLt_irrefl (l : List Char) : chListLt l l = false := by
  induction l with
  | nil => rfl
  | cons a as ih => simp [chListLt, ih]

theorem chListLt_trans (a : List Char) :
    ∀ b c, chListLt a b = true → chListLt b c = true → chListLt a c = true := by
  induction a with
  | nil =>
    intro b c hab hbc
    cases b with
    | nil => simp [chListLt] at hab
    | cons y ys =>
      cases c with
      | nil => simp [chListLt] at hbc
      | cons z zs => simp [chListLt]
  | cons x xs ih =>
    intro b c hab hbc
    cases b with
    | nil => simp [chListLt] at hab
    | cons y ys =>
      cases c with
      | nil => simp [chListLt] at hbc
      | cons z zs =>
        simp only [chListLt] at hab hbc ⊢
        rcases Nat.lt_trichotomy x.toNat y.toNat with h1 | h1 | h1 <;>
          rcases Nat.lt_trichotomy y.toNat z.toNat with h2 | h2 | h2
        · simp [show x.toNat < z.toNat by omega]
        · simp [show x.toNat < z.toNat by omega]
        · simp [show ¬ y.toNat < z.toNat by omega, show ¬ y.toNat = z.toNat by omega] at hbc
        · simp [show x.toNat < z.toNat by omega]
        · simp [show ¬ x.toNat < y.toNat by omega, h1] at hab
          simp [show ¬ y.toNat < z.toNat by omega, h2] at hbc
          simp [show ¬ x.toNat < z.toNat by omega, show x.toNat = z.toNat by omega]
          exact ih ys zs hab hbc
        · simp [show ¬ y.toNat < z.toNat by omega, show ¬ y.toNat = z.toNat by omega] at hbc
        · simp [show ¬ x.toNat < y.toNat by omega, show ¬ x.toNat = y.toNat by omega] at hab
        · simp [show ¬ x.toNat < y.toNat by omega, show ¬ x.toNat = y.toNat by omega] at hab
        · simp [show ¬ x.toNat < y.toNat by omega, show ¬ x.toNat = y.toNat by omega] at hab

theorem chListLt_conn (a : List Char) :
    ∀ b, chListLt a b = false → chListLt b a = false → a = b := by
  induction a with
  | nil =>
    intro b hab _
    cases b with
    | nil => rfl
    | cons y ys => simp [chListLt] at hab
  | cons x xs ih =>
    intro b hab hba
    cases b with
    | nil => simp [chListLt] at hba
    | cons y ys =>
      simp only [chListLt] at hab hba
      rcases Nat.lt_trichotomy x.toNat y.toNat with h1 | h1 | h1
      · simp [h1] at hab
      · simp [show ¬ x.toNat < y.toNat by omega, h1] at hab
        simp [show ¬ y.toNat < x.toNat by omega, h1.symm] at hba
        rw [char_eq_of_toNat_eq h1, ih ys hab hba]
      · simp [h1] at hba

theorem goStrLt_trans {a b c : String} (hab : goStrLt a b = true)
    (hbc : goStrLt b c = true) : goStrLt a c = true :=
  chListLt_trans a.data b.data c.data hab hbc

theorem goStrLt_conn {a b : String} (hab : goStrLt a b = false)
    (hba : goStrLt b a = false) : a = b :=
  str_eq_of_data_eq (chListLt_conn a.data b.data hab hba)

theorem goStrLt_irrefl (a : String) : goStrLt a a = false :=
  chListLt_irrefl a.data

/-! ## Correctness of the election computation -/

/-- The value a swap pass leaves in front is a lower bound: nothing in the
scanned segment is strictly below it. -/
theorem selMin_fst_min (l : List String) :
    ∀ x, ∀ z ∈ x :: l, goStrLt z (selMin x l).1 = false := by
  induction l with
  | nil =>
    intro x z hz
    simp at hz
    simp [selMin, hz, goStrLt_irrefl]
  | cons y ys ih =>
    intro x z hz
    simp only [List.mem_cons] at hz
    by_cases hxy : goStrLt y x = true
    · have hmin := ih y
      simp only [selMin, hxy, if_true]
      rcases hz with hz | hz | hz
      · -- z = x: if x were below the pass minimum, so would y be, against ih
        subst hz
        cases hxp : goStrLt z (selMin y ys).1 with
        | false => rfl
        | true =>
          have := goStrLt_trans hxy hxp
          have hy := hmin y (by simp)
          rw [hy] at this
          cases this
      · subst hz
        exact hmin z (by simp)
      · exact hmin z (by simp [hz])
    · have hxy' : goStrLt y x = false := by
        cases h : goStrLt y x
        · rfl
        · exact absurd h hxy
      have hmin := ih x
      simp only [selMin, hxy', Bool.false_eq_true, if_false]
      rcases hz with hz | hz | hz
      · subst hz
        exact hmin z (by simp)
      · -- z = y: y is not below x, and x is not below the pass minimum
        subst hz
        cases hyp : goStrLt z (selMin x ys).1 with
        | false => rfl
        | true =>
          have hxmin := hmin x (by simp)
          cases hxz : goStrLt x z with
          | true =>
            have := goStrLt_trans hxz hyp
            rw [hxmin] at this
            cases this
          | false =>
            have hx : x = z := goStrLt_conn hxz hxy'
            subst hx
            rw [hxmin] at hyp
            cases hyp
      · exact hmin z (by simp [hz])

/-- The value a swap pass leaves in front comes from the scanned segment. -/
theorem selMin_fst_mem (l : List String) : ∀ x, (selMin x l).1 ∈ x :: l := by
  induction l with
  | nil => intro x; simp [selMin]
  | cons y ys ih =>
    intro x
    by_cases hxy : goStrLt y x = true
    · simp only [selMin, hxy, if_true]
      have := ih y
      simp at this ⊢
      tauto
    · have hxy' : goStrLt y x = false := by
        cases h : goStrLt y x
        · rfl
        · exact absurd h hxy
      simp only [selMin, hxy', Bool.false_eq_true, if_false]
      have := ih x
      simp at this ⊢
      tauto

/-- The sorted eligible list starts with the pass minimum. -/
theorem selSort_cons (x : String) (xs : List String) :
    selSort (x :: xs) = (selMin x xs).1 :: selSortGo xs.length (selMin x xs).2 := by
  simp [selSort, selSortGo]

theorem nodeEligible_iff (nodes : List (String × Node)) (n : String) :
    nodeEligible nodes n = true ↔
      ∃ nd, lookupStr nodes n = some nd ∧ isNodeReady nd = true ∧
        isNodeExcludedFromBalancers nd = false := by
  unfold nodeEligible
  cases h : lookupStr nodes n with
  | none => simp
  | some nd => simp [Bool.and_eq_true, Bool.not_eq_true']

theorem mem_eligibleFromAdv (nodes : List (String × Node)) (adv : UPnPAdv) (n : String) :
    n ∈ eligibleFromAdv nodes adv ↔
      adv.enabled = true ∧ n ∈ adv.nodes ∧ nodeEligible nodes n = true := by
  unfold eligibleFromAdv
  cases h : adv.enabled with
  | false => simp
  | true => simp [List.mem_filter]

theorem mem_foldl_elig (nodes : List (String × Node)) (advs : List UPnPAdv) :
    ∀ (acc : List String) (n : String),
      n ∈ advs.foldl (fun acc adv => acc ++ eligibleFromAdv nodes adv) acc ↔
        n ∈ acc ∨ ∃ adv ∈ advs, n ∈ eligibleFromAdv nodes adv := by
  induction advs with
  | nil => simp
  | cons adv rest ih =>
    intro acc n
    simp only [List.foldl_cons, ih, List.mem_append, List.mem_cons]
    constructor
    · rintro ((h | h) | ⟨a, ha, hn⟩)
      · exact Or.inl h
      · exact Or.inr ⟨adv, Or.inl rfl, h⟩
      · exact Or.inr ⟨a, Or.inr ha, hn⟩
    · rintro (h | ⟨a, ha | ha, hn⟩)
      · exact Or.inl (Or.inl h)
      · exact Or.inl (Or.inr (ha ▸ hn))
      · exact Or.inr ⟨a, ha, hn⟩

theorem mem_elig_iff_candidate (advs : List UPnPAdv) (nodes : List (String × Node)) (n : String) :
    n ∈ advs.foldl (fun acc adv => acc ++ eligibleFromAdv nodes adv) [] ↔
      IsCandidate advs nodes n := by
  rw [mem_foldl_elig]
  simp only [List.not_mem_nil, false_or, IsCandidate]
  constructor
  · rintro ⟨a, ha, hn⟩
    rw [mem_eligibleFromAdv] at hn
    exact ⟨a, ha, hn.1, hn.2.1, (nodeEligible_iff nodes n).mp hn.2.2⟩
  · rintro ⟨a, ha, hen, hall, hnd⟩
    exact ⟨a, ha, (mem_eligibleFromAdv nodes a n).mpr ⟨hen, hall, (nodeEligible_iff nodes n).mpr hnd⟩⟩

/-! ## Bookkeeping-table and trace lemmas -/

theorem lookupStr_eraseKey {α : Type} (l : List (String × α)) (k : String) :
    lookupStr (eraseKey l k) k = none := by
  induction l with
  | nil => rfl
  | cons p rest ih =>
    by_cases h : p.1 = k
    · simpa [eraseKey, List.filter_cons, h] using ih
    · simpa [eraseKey, List.filter_cons, h, lookupStr] using ih

theorem lookupStr_append {α : Type} (a b : List (String × α)) (k : String) :
    lookupStr (a ++ b) k =
      match lookupStr a k with
      | some v => some v
      | none => lookupStr b k := by
  induction a with
  | nil => rfl
  | cons p rest ih =>
    by_cases h : p.1 = k
    · simp [lookupStr, h]
    · simp [lookupStr, h, ih]

theorem lookupStr_setKey {α : Type} (l : List (String × α)) (k : String) (v : α) :
    lookupStr (setKey l k v) k = some v := by
  unfold setKey
  rw [lookupStr_append, lookupStr_eraseKey]
  simp [lookupStr]

theorem upper_of_lower_valid (p : String)
    (h : goToLower p = "tcp" ∨ goToLower p = "udp") :
    goToUpper (goToLower p) = "TCP" ∨ goToUpper (goToLower p) = "UDP" := by
  rcases h with h | h <;> rw [h]
  · exact Or.inl (by decide)
  · exact Or.inr (by decide)

theorem addPortMapping_valid_none (addResp : PortMapping → Option DevError)
    (m : PortMapping) (h : goToUpper m.protocol = "TCP" ∨ goToUpper m.protocol = "UDP")
    (hok : addResp m = none) :
    AddPortMapping addResp (some m) = (.ok (), [addActOf m]) := by
  rcases h with h | h <;> simp [AddPortMapping, h, hok]

theorem addPortMapping_valid_some (addResp : PortMapping → Option DevError)
    (m : PortMapping) (e : DevError)
    (h : goToUpper m.protocol = "TCP" ∨ goToUpper m.protocol = "UDP")
    (he : addResp m = some e) :
    AddPortMapping addResp (some m)
      = (.error ("failed to add port mapping: " ++ e.errString), [addActOf m]) := by
  rcases h with h | h <;> simp [AddPortMapping, h, he]

theorem deletePortMapping_trace (delResp : Nat → String → Option DevError)
    (port : Nat) (p : String) (h : goToUpper p = "TCP" ∨ goToUpper p = "UDP") :
    (DeletePortMapping delResp port p).2 = [.delCall (port % 65536) (goToUpper p)] := by
  rcases h with h | h <;>
  · simp only [DeletePortMapping, h]
    rw [if_neg (by simp)]
    cases delResp (port % 65536) _ with
    | none => rfl
    | some e =>
      dsimp only
      split <;> rfl

theorem deleteExistingMappings_none (dev : DevOracle) (table : MappingTable)
    (name : String) (hl : lookupStr table name = none) :
    deleteExistingMappings dev table name = (table, []) := by
  simp [deleteExistingMappings, hl]

theorem deleteTrace_map (dev : DevOracle) :
    ∀ ms : List PortMapping,
      (∀ m ∈ ms, goToUpper m.protocol = "TCP" ∨ goToUpper m.protocol = "UDP") →
      (ms.map (fun m =>
          (DeletePortMapping dev.delResp m.externalPort m.protocol).2.map CtrlEvent.dev)).flatten
        = ms.map (fun m => CtrlEvent.dev (delActOf m)) := by
  intro ms
  induction ms with
  | nil => intro _; rfl
  | cons m rest ih =>
    intro hv
    simp only [List.map_cons, List.flatten_cons]
    rw [deletePortMapping_trace dev.delResp m.externalPort m.protocol (hv m (by simp))]
    rw [ih (fun x hx => hv x (by simp [hx]))]
    rfl

theorem deleteExistingMappings_some (dev : DevOracle) (table : MappingTable)
    (name : String) (ms : List PortMapping) (hl : lookupStr table name = some ms)
    (hv : ∀ m ∈ ms, goToUpper m.protocol = "TCP" ∨ goToUpper m.protocol = "UDP") :
    deleteExistingMappings dev table name
      = (eraseKey table name, ms.map (fun m => CtrlEvent.dev (delActOf m))) := by
  unfold deleteExistingMappings
  rw [hl]
  exact congrArg (Prod.mk _) (deleteTrace_map dev ms hv)

theorem lookup_deleteExistingMappings (dev : DevOracle) (table : MappingTable)
    (name : String) :
    lookupStr (deleteExistingMappings dev table name).1 name = none := by
  unfold deleteExistingMappings
  cases hl : lookupStr table name with
  | none => exact hl
  | some ms => exact lookupStr_eraseKey table name

/-- Every event `deleteExistingMappings` emits is a device action, never a
status-change notification. -/
theorem deleteExistingMappings_no_status (dev : DevOracle) (table : MappingTable)
    (name : String) :
    ∀ e ∈ (deleteExistingMappings dev table name).2,
      isStatusChange e = false := by
  unfold deleteExistingMappings
  cases hl : lookupStr table name with
  | none => simp
  | some ms =>
    intro e he
    simp only [List.mem_flatten, List.mem_map] at he
    obtain ⟨l, ⟨m, _, hml⟩, hel⟩ := he
    subst hml
    simp only [List.mem_map] at hel
    obtain ⟨a, _, hea⟩ := hel
    subst hea
    rfl

theorem addMappingsForIP_spec (dev : DevOracle) (svc : Service) (ip : String) :
    ∀ ports : List ServicePort,
      (addMappingsForIP dev svc ip ports).1
          = (desiredForIP svc ip ports).filter (fun m => (dev.addResp m).isNone)
        ∧ (addMappingsForIP dev svc ip ports).2
          = (desiredForIP svc ip ports).map (fun m => CtrlEvent.dev (addActOf m)) := by
  intro ports
  induction ports with
  | nil => exact ⟨rfl, rfl⟩
  | cons port rest ih =>
    by_cases h0 : port.port = 0
    · simpa [addMappingsForIP, desiredForIP, h0] using ih
    · by_cases hpr : goToLower port.protocol ≠ "tcp" ∧ goToLower port.protocol ≠ "udp"
      · simpa [addMappingsForIP, desiredForIP, h0, hpr] using ih
      · have hpr' : goToLower port.protocol = "tcp" ∨ goToLower port.protocol = "udp" := by
          rcases not_and_or.mp hpr with h | h
          · exact Or.inl (not_not.mp h)
          · exact Or.inr (not_not.mp h)
        have hvalid : goToUpper (mkMapping svc ip port).protocol = "TCP"
            ∨ goToUpper (mkMapping svc ip port).protocol = "UDP" :=
          upper_of_lower_valid port.protocol hpr'
        cases hr : dev.addResp (mkMapping svc ip port) with
        | none =>
          rw [show addMappingsForIP dev svc ip (port :: rest)
              = (mkMapping svc ip port :: (addMappingsForIP dev svc ip rest).1,
                 CtrlEvent.dev (addActOf (mkMapping svc ip port))
                   :: (addMappingsForIP dev svc ip rest).2) by
            simp only [addMappingsForIP]
            rw [if_neg h0, if_neg hpr, addPortMapping_valid_none dev.addResp _ hvalid hr]
            rfl]
          rcases hpr' with h | h <;>
            simp [desiredForIP, h0, h, ih.1, ih.2, hr]
        | some e =>
          rw [show addMappingsForIP dev svc ip (port :: rest)
              = ((addMappingsForIP dev svc ip rest).1,
                 CtrlEvent.dev (addActOf (mkMapping svc ip port))
                   :: (addMappingsForIP dev svc ip rest).2) by
            simp only [addMappingsForIP]
            rw [if_neg h0, if_neg hpr, addPortMapping_valid_some dev.addResp _ e hvalid hr]
            rfl]
          rcases hpr' with h | h <;>
            simp [desiredForIP, h0, h, ih.1, ih.2, hr]

theorem buildMappings_spec (dev : DevOracle) (svc : Service) :
    ∀ lbIPs : List String,
      (buildMappings dev svc lbIPs).1
          = (desiredMappings svc lbIPs).filter (fun m => (dev.addResp m).isNone)
        ∧ (buildMappings dev svc lbIPs).2
          = (desiredMappings svc lbIPs).map (fun m => CtrlEvent.dev (addActOf m)) := by
  intro lbIPs
  induction lbIPs with
  | nil => exact ⟨rfl, rfl⟩
  | cons ip rest ih =>
    have ha := addMappingsForIP_spec dev svc ip svc.ports
    constructor
    · simp only [buildMappings, desiredMappings, List.filter_append, ha.1, ih.1]
    · simp only [buildMappings, desiredMappings, List.map_append, ha.2, ih.2]

theorem setBalancer_enabled (dev : DevOracle) (table : MappingTable) (name : String)
    (lbIPs : List String) (svc : Service) (hEn : isUPnPEnabled svc = true) :
    SetBalancer dev table name lbIPs svc
      = (setKey (deleteExistingMappings dev table name).1 name (buildMappings dev svc lbIPs).1,
         (deleteExistingMappings dev table name).2 ++ (buildMappings dev svc lbIPs).2
           ++ (if (buildMappings dev svc lbIPs).1.length > 0
               then [CtrlEvent.statusChange svc.ns svc.name] else []),
         .ok ()) := by
  simp [SetBalancer, hEn]

/-- The enumeration loop issues at most `fuel + 1` entry queries. -/
theorem getLoop_trace_len (entryResp : Nat → EntryResult) :
    ∀ (fuel index : Nat) (acc : List PortMapping),
      ((getPortMappingsLoop entryResp index fuel acc).2).length ≤ fuel + 1 := by
  intro fuel
  induction fuel with
  | zero =>
    intro index acc
    rw [getPortMappingsLoop]
    cases hr : entryResp index with
    | fault e =>
      dsimp only
      split <;> simp
    | entry a b c d en f g => simp
  | succ fl ih =>
    intro index acc
    rw [getPortMappingsLoop]
    cases hr : entryResp index with
    | fault e =>
      dsimp only
      split <;> simp
    | entry a b c d en f g =>
      dsimp only
      have := ih (index + 1)
        (if en && parseIPv4ok d then acc ++ [entryToMapping a b c d f g] else acc)
      simp only [List.length_cons]
      omega

/-- If the device answers entries up to index `k` and reports the end-of-list
fault at `k` (within the remaining budget), the loop stops right there: it
queries exactly the indices up to `k` and returns success. -/
theorem getLoop_stops (entryResp : Nat → EntryResult) (e : DevError)
    (hben : isEndOfListErr e.errString = true) :
    ∀ (k fuel index : Nat) (acc : List PortMapping),
      (∀ i, i < k → isEntryRes (entryResp (index + i)) = true) →
      entryResp (index + k) = .fault e →
      k ≤ fuel →
      (getPortMappingsLoop entryResp index fuel acc).2
          = (List.range (k + 1)).map (fun j => DevAction.getEntryCall (index + j))
        ∧ ∃ ms, (getPortMappingsLoop entryResp index fuel acc).1 = .ok ms := by
  intro k
  induction k with
  | zero =>
    intro fuel index acc _ hf _
    rw [Nat.add_zero] at hf
    rw [getPortMappingsLoop, hf]
    dsimp only
    rw [if_pos hben]
    exact ⟨by rw [show List.range 1 = [0] from rfl]; simp, ⟨acc, rfl⟩⟩
  | succ k ih =>
    intro fuel index acc hent hf hkf
    have h0 : isEntryRes (entryResp index) = true := by
      have := hent 0 (by omega)
      rwa [Nat.add_zero] at this
    rw [getPortMappingsLoop]
    cases hr : entryResp index with
    | fault e2 =>
      rw [hr] at h0
      cases h0
    | entry a b c d en f g =>
      dsimp only
      cases fuel with
      | zero => omega
      | succ fl =>
        dsimp only
        have hrec := ih fl (index + 1)
          (if en && parseIPv4ok d then acc ++ [entryToMapping a b c d f g] else acc)
          (fun i hi => by
            have := hent (i + 1) (by omega)
            rwa [show index + (i + 1) = index + 1 + i by omega] at this)
          (by rwa [show index + 1 + k = index + (k + 1) by omega])
          (by omega)
        refine ⟨?_, hrec.2⟩
        rw [hrec.1]
        conv_rhs => rw [List.range_succ_eq_map, List.map_cons, List.map_map]
        have hfn : ((fun j => DevAction.getEntryCall (index + j)) ∘ Nat.succ)
            = fun j => DevAction.getEntryCall (index + 1 + j) := by
          funext j
          simp only [Function.comp]
          congr 1
          omega
        rw [hfn]
        simp

/-- C8: enumeration is bounded: for every device behaviour the loop issues at
most 1001 entry queries (indices 0 through 1000, the source's safety stop),
and it stops earlier at the first fault the code classifies as
out-of-range — querying exactly indices 0..k when the device answers entries
below k and the end-of-list fault at k — returning success. -/
theorem claim8_bounded_enumeration (entryResp : Nat → EntryResult) (k : Nat) (e : DevError)
    (hk : k ≤ 1000) (hfault : entryResp k = .fault e)
    (hben : isEndOfListErr e.errString = true)
    (hent : ∀ i, i < k → isEntryRes (entryResp i) = true) :
    (∀ r : Nat → EntryResult, ((GetPortMappings r).2).length ≤ 1001)
    ∧ (GetPortMappings entryResp).2 = (List.range (k + 1)).map DevAction.getEntryCall
    ∧ ∃ ms, (GetPortMappings entryResp).1 = .ok ms := by
  have hstop := getLoop_stops entryResp e hben k 1000 0 []
    (fun i hi => by simpa using hent i hi)
    (by simpa using hfault) hk
  refine ⟨fun r => ?_, ?_, hstop.2⟩
  · have := getLoop_trace_len r 1000 0 []
    simpa [GetPortMappings] using this
  · rw [GetPortMappings, hstop.1]
    simp

/-- Witness for C8: a device that answers two entries and then the
out-of-range fault stops after querying indices 0, 1, 2; and a device that
never reports the fault still stays within the 1001-query bound. -/
theorem claim8_bounded_enumeration_witness :
    (GetPortMappings (fun _ => .entry 80 "TCP" 80 "10.0.0.9" true "d" 0)).2.length ≤ 1001
    ∧ (GetPortMappings (fun i => if i < 2 then .entry 80 "TCP" 80 "10.0.0.9" true "d" 0
        else .fault (.soapFault 713 "SpecifiedArrayIndexInvalid"))).2
      = (List.range 3).map DevAction.getEntryCall := by
  have h := claim8_bounded_enumeration
    (fun i => if i < 2 then .entry 80 "TCP" 80 "10.0.0.9" true "d" 0
      else .fault (.soapFault 713 "SpecifiedArrayIndexInvalid"))
    2 (.soapFault 713 "SpecifiedArrayIndexInvalid")
    (by decide) (by decide) (by decide) (by decide)
  exact ⟨h.1 _, h.2.1⟩

/-- C9: for every well-formed service key, `DeleteBalancer` clears the record
for that key, returns nil, and emits the status-change notification exactly
once, as the last event, after the per-mapping deletion attempts — whatever
the outcome of the individual device deletions (the oracle is universally
quantified, so this covers failing deletions). The final conjunct shows the
trace is exactly one deletion attempt per recorded mapping followed by the
notification. -/
theorem claim9_remove_clears_and_notifies (dev : DevOracle) (table : MappingTable)
    (name nsp nm : String) (hk : splitMetaNamespaceKey name = .ok (nsp, nm)) :
    lookupStr (DeleteBalancer dev table name).1 name = none
    ∧ (DeleteBalancer dev table name).2.2 = .ok ()
    ∧ (DeleteBalancer dev table name).2.1.filter isStatusChange
      = [CtrlEvent.statusChange nsp nm]
    ∧ (DeleteBalancer dev table name).2.1.getLast? = some (CtrlEvent.statusChange nsp nm)
    ∧ (∀ ms, lookupStr table name = some ms →
        (∀ m ∈ ms, goToUpper m.protocol = "TCP" ∨ goToUpper m.protocol = "UDP") →
        (DeleteBalancer dev table name).2.1
          = ms.map (fun m => CtrlEvent.dev (delActOf m)) ++ [CtrlEvent.statusChange nsp nm]) := by
  have hDB : DeleteBalancer dev table name
      = ((deleteExistingMappings dev table name).1,
         (deleteExistingMappings dev table name).2 ++ [CtrlEvent.statusChange nsp nm],
         .ok ()) := by
    unfold DeleteBalancer
    rw [hk]
  refine ⟨?_, ?_, ?_, ?_, ?_⟩
  · rw [hDB]
    exact lookup_deleteExistingMappings dev table name
  · rw [hDB]
  · rw [hDB]
    dsimp only
    rw [List.filter_append]
    have hno : ((deleteExistingMappings dev table name).2).filter isStatusChange = [] := by
      rw [List.filter_eq_nil_iff]
      intro e he
      simp [deleteExistingMappings_no_status dev table name e he]
    rw [hno]
    rfl
  · rw [hDB]
    dsimp only
    exact List.getLast?_concat _
  · intro ms hms hv
    rw [hDB]
    dsimp only
    rw [deleteExistingMappings_some dev table name ms hms hv]

/-- Witness for C9: removing key "ns/s" while its record holds one mapping
and every device deletion fails. -/
theorem claim9_remove_clears_and_notifies_witness :
    splitMetaNamespaceKey "ns/s" = .ok ("ns", "s")
    ∧ lookupStr (DeleteBalancer ⟨fun _ => none, fun _ _ => some (.transport "refused")⟩
        [("ns/s", [⟨80, 80, "10.0.0.9", "tcp", "d", 0⟩])] "ns/s").1 "ns/s" = none
    ∧ (DeleteBalancer ⟨fun _ => none, fun _ _ => some (.transport "refused")⟩
        [("ns/s", [⟨80, 80, "10.0.0.9", "tcp", "d", 0⟩])] "ns/s").2.1.filter isStatusChange
      = [CtrlEvent.statusChange "ns" "s"]
    ∧ (DeleteBalancer ⟨fun _ => none, fun _ _ => some (.transport "refused")⟩
        [("ns/s", [⟨80, 80, "10.0.0.9", "tcp", "d", 0⟩])] "ns/s").2.1.getLast?
      = some (CtrlEvent.statusChange "ns" "s") := by
  have h := claim9_remove_clears_and_notifies
    ⟨fun _ => none, fun _ _ => some (.transport "refused")⟩
    [("ns/s", [⟨80, 80, "10.0.0.9", "tcp", "d", 0⟩])] "ns/s" "ns" "s" (by decide)
  exact ⟨by decide, h.1, h.2.2.1, h.2.2.2.1⟩

/-- C1: full-replace law. For every service key S and every starting table:
applying S with two valid ports (creations succeeding) and then applying S
with one valid port (creation succeeding) leaves exactly the third mapping
recorded for S; the first two are no longer recorded; and the second apply's
event trace consists of the deletions of the two previously recorded
mappings, followed by the creation of the third, followed by the
notification — so both deletions were attempted before any creation. -/
theorem claim1_full_replace (dev1 dev2 : DevOracle) (table : MappingTable)
    (S ip1 ip2 : String) (svc1 svc2 : Service) (pA pB pC : ServicePort)
    (hEn1 : isUPnPEnabled svc1 = true) (hEn2 : isUPnPEnabled svc2 = true)
    (hports1 : svc1.ports = [pA, pB]) (hports2 : svc2.ports = [pC])
    (h0A : pA.port ≠ 0)
    (hprA : goToLower pA.protocol = "tcp" ∨ goToLower pA.protocol = "udp")
    (h0B : pB.port ≠ 0)
    (hprB : goToLower pB.protocol = "tcp" ∨ goToLower pB.protocol = "udp")
    (h0C : pC.port ≠ 0)
    (hprC : goToLower pC.protocol = "tcp" ∨ goToLower pC.protocol = "udp")
    (hAok : dev1.addResp (mkMapping svc1 ip1 pA) = none)
    (hBok : dev1.addResp (mkMapping svc1 ip1 pB) = none)
    (hCok : dev2.addResp (mkMapping svc2 ip2 pC) = none)
    (hAC : mkMapping svc1 ip1 pA ≠ mkMapping svc2 ip2 pC)
    (hBC : mkMapping svc1 ip1 pB ≠ mkMapping svc2 ip2 pC) :
    lookupStr (SetBalancer dev2 (SetBalancer dev1 table S [ip1] svc1).1 S [ip2] svc2).1 S
      = some [mkMapping svc2 ip2 pC]
    ∧ mkMapping svc1 ip1 pA ∉ [mkMapping svc2 ip2 pC]
    ∧ mkMapping svc1 ip1 pB ∉ [mkMapping svc2 ip2 pC]
    ∧ (SetBalancer dev2 (SetBalancer dev1 table S [ip1] svc1).1 S [ip2] svc2).2.1
      = [CtrlEvent.dev (delActOf (mkMapping svc1 ip1 pA)),
         CtrlEvent.dev (delActOf (mkMapping svc1 ip1 pB)),
         CtrlEvent.dev (addActOf (mkMapping svc2 ip2 pC)),
         CtrlEvent.statusChange svc2.ns svc2.name] := by
  have hdes1 : desiredMappings svc1 [ip1] = [mkMapping svc1 ip1 pA, mkMapping svc1 ip1 pB] := by
    rcases hprA with hA | hA <;> rcases hprB with hB | hB <;>
      simp [desiredMappings, desiredForIP, hports1, h0A, h0B, hA, hB]
  have hdes2 : desiredMappings svc2 [ip2] = [mkMapping svc2 ip2 pC] := by
    rcases hprC with hC | hC <;> simp [desiredMappings, desiredForIP, hports2, h0C, hC]
  have hbuilt1 : (buildMappings dev1 svc1 [ip1]).1
      = [mkMapping svc1 ip1 pA, mkMapping svc1 ip1 pB] := by
    rw [(buildMappings_spec dev1 svc1 [ip1]).1, hdes1]
    simp [List.filter, hAok, hBok]
  have hst1 : lookupStr (SetBalancer dev1 table S [ip1] svc1).1 S
      = some [mkMapping svc1 ip1 pA, mkMapping svc1 ip1 pB] := by
    rw [setBalancer_enabled dev1 table S [ip1] svc1 hEn1]
    dsimp only
    rw [lookupStr_setKey, hbuilt1]
  have hvAB : ∀ m ∈ [mkMapping svc1 ip1 pA, mkMapping svc1 ip1 pB],
      goToUpper m.protocol = "TCP" ∨ goToUpper m.protocol = "UDP" := by
    intro m hm
    simp only [List.mem_cons, List.not_mem_nil, or_false] at hm
    rcases hm with hm | hm <;> subst hm
    · exact upper_of_lower_valid pA.protocol hprA
    · exact upper_of_lower_valid pB.protocol hprB
  have hdel2 := deleteExistingMappings_some dev2 (SetBalancer dev1 table S [ip1] svc1).1
    S _ hst1 hvAB
  have hbuilt2 : (buildMappings dev2 svc2 [ip2]).1 = [mkMapping svc2 ip2 pC] := by
    rw [(buildMappings_spec dev2 svc2 [ip2]).1, hdes2]
    simp [List.filter, hCok]
  have htr2 : (buildMappings dev2 svc2 [ip2]).2
      = [CtrlEvent.dev (addActOf (mkMapping svc2 ip2 pC))] := by
    rw [(buildMappings_spec dev2 svc2 [ip2]).2, hdes2]
    rfl
  have hs2 := setBalancer_enabled dev2 (SetBalancer dev1 table S [ip1] svc1).1 S [ip2] svc2 hEn2
  refine ⟨?_, by simp [hAC], by simp [hBC], ?_⟩
  · rw [hs2]
    dsimp only
    rw [lookupStr_setKey, hbuilt2]
  · rw [hs2]
    dsimp only
    rw [hdel2, htr2, hbuilt2]
    rfl

/-- Witness for C1: two applies for key "ns/s", first with ports 80 and 443,
then with port 8080; all device operations succeed. -/
theorem claim1_full_replace_witness :
    lookupStr (SetBalancer ⟨fun _ => none, fun _ _ => none⟩
        (SetBalancer ⟨fun _ => none, fun _ _ => none⟩ [] "ns/s" ["10.0.0.9"]
          ⟨"s", "ns", [("metallb.universe.tf/upnp-enabled", "true")],
            [⟨80, "TCP"⟩, ⟨443, "TCP"⟩]⟩).1 "ns/s" ["10.0.0.9"]
        ⟨"s", "ns", [("metallb.universe.tf/upnp-enabled", "true")], [⟨8080, "UDP"⟩]⟩).1 "ns/s"
      = some [mkMapping
          ⟨"s", "ns", [("metallb.universe.tf/upnp-enabled", "true")], [⟨8080, "UDP"⟩]⟩
          "10.0.0.9" ⟨8080, "UDP"⟩]
    ∧ (SetBalancer ⟨fun _ => none, fun _ _ => none⟩
        (SetBalancer ⟨fun _ => none, fun _ _ => none⟩ [] "ns/s" ["10.0.0.9"]
          ⟨"s", "ns", [("metallb.universe.tf/upnp-enabled", "true")],
            [⟨80, "TCP"⟩, ⟨443, "TCP"⟩]⟩).1 "ns/s" ["10.0.0.9"]
        ⟨"s", "ns", [("metallb.universe.tf/upnp-enabled", "true")], [⟨8080, "UDP"⟩]⟩).2.1
      = [CtrlEvent.dev (delActOf (mkMapping
            ⟨"s", "ns", [("metallb.universe.tf/upnp-enabled", "true")],
              [⟨80, "TCP"⟩, ⟨443, "TCP"⟩]⟩ "10.0.0.9" ⟨80, "TCP"⟩)),
         CtrlEvent.dev (delActOf (mkMapping
            ⟨"s", "ns", [("metallb.universe.tf/upnp-enabled", "true")],
              [⟨80, "TCP"⟩, ⟨443, "TCP"⟩]⟩ "10.0.0.9" ⟨443, "TCP"⟩)),
         CtrlEvent.dev (addActOf (mkMapping
            ⟨"s", "ns", [("metallb.universe.tf/upnp-enabled", "true")], [⟨8080, "UDP"⟩]⟩
            "10.0.0.9" ⟨8080, "UDP"⟩)),
         CtrlEvent.statusChange "ns" "s"] := by
  have h := claim1_full_replace ⟨fun _ => none, fun _ _ => none⟩ ⟨fun _ => none, fun _ _ => none⟩
    [] "ns/s" "10.0.0.9" "10.0.0.9"
    ⟨"s", "ns", [("metallb.universe.tf/upnp-enabled", "true")], [⟨80, "TCP"⟩, ⟨443, "TCP"⟩]⟩
    ⟨"s", "ns", [("metallb.universe.tf/upnp-enabled", "true")], [⟨8080, "UDP"⟩]⟩
    ⟨80, "TCP"⟩ ⟨443, "TCP"⟩ ⟨8080, "UDP"⟩
    (by decide) (by decide) rfl rfl (by decide) (by decide) (by decide) (by decide)
    (by decide) (by decide) rfl rfl rfl (by decide) (by decide)
  exact ⟨h.1, h.2.2.2⟩

/-- C3: for an enabled service, an apply records for the key exactly the
valid desired mappings whose creation the device confirmed — a mapping whose
creation failed is never recorded — and a remove leaves the record absent. -/
theorem claim3_record_invariant (dev dev2 : DevOracle) (table : MappingTable)
    (name : String) (lbIPs : List String) (svc : Service)
    (hEn : isUPnPEnabled svc = true) :
    lookupStr (SetBalancer dev table name lbIPs svc).1 name
      = some ((desiredMappings svc lbIPs).filter (fun m => (dev.addResp m).isNone))
    ∧ (∀ ms, lookupStr (SetBalancer dev table name lbIPs svc).1 name = some ms →
        ∀ m ∈ ms, dev.addResp m = none)
    ∧ lookupStr (DeleteBalancer dev2 table name).1 name = none := by
  have hs := setBalancer_enabled dev table name lbIPs svc hEn
  refine ⟨?_, ?_, ?_⟩
  · rw [hs]
    dsimp only
    rw [lookupStr_setKey, (buildMappings_spec dev svc lbIPs).1]
  · intro ms hms m hm
    rw [hs] at hms
    dsimp only at hms
    rw [lookupStr_setKey] at hms
    rw [(buildMappings_spec dev svc lbIPs).1] at hms
    cases hms
    have := List.of_mem_filter hm
    simpa [Option.isNone_iff_eq_none] using this
  · have hd := lookup_deleteExistingMappings dev2 table name
    unfold DeleteBalancer
    cases hk : splitMetaNamespaceKey name with
    | error e => exact hd
    | ok p => exact hd

/-- Witness for C3: a service with one succeeding port (80) and one failing
port (443); the record holds exactly the confirmed mapping, and the remove
clears it. -/
theorem claim3_record_invariant_witness :
    isUPnPEnabled ⟨"s", "ns", [("metallb.universe.tf/upnp-enabled", "true")],
        [⟨80, "TCP"⟩, ⟨443, "TCP"⟩]⟩ = true
    ∧ (lookupStr (SetBalancer
          ⟨fun m => if m.externalPort = 443 then some (.transport "refused") else none,
            fun _ _ => none⟩ [] "ns/s" ["10.0.0.9"]
          ⟨"s", "ns", [("metallb.universe.tf/upnp-enabled", "true")],
            [⟨80, "TCP"⟩, ⟨443, "TCP"⟩]⟩).1 "ns/s"
        = some ((desiredMappings
            ⟨"s", "ns", [("metallb.universe.tf/upnp-enabled", "true")],
              [⟨80, "TCP"⟩, ⟨443, "TCP"⟩]⟩ ["10.0.0.9"]).filter
            (fun m => ((if m.externalPort = 443 then some (DevError.transport "refused")
                else none) : Option DevError).isNone))
      ∧ (∀ ms, lookupStr (SetBalancer
            ⟨fun m => if m.externalPort = 443 then some (.transport "refused") else none,
              fun _ _ => none⟩ [] "ns/s" ["10.0.0.9"]
            ⟨"s", "ns", [("metallb.universe.tf/upnp-enabled", "true")],
              [⟨80, "TCP"⟩, ⟨443, "TCP"⟩]⟩).1 "ns/s" = some ms →
          ∀ m ∈ ms, (if m.externalPort = 443 then some (DevError.transport "refused")
              else none) = none)
      ∧ lookupStr (DeleteBalancer
          ⟨fun _ => none, fun _ _ => some (.transport "refused")⟩ [] "ns/s").1 "ns/s"
        = none) :=
  ⟨by decide,
    claim3_record_invariant
      ⟨fun m => if m.externalPort = 443 then some (.transport "refused") else none,
        fun _ _ => none⟩
      ⟨fun _ => none, fun _ _ => some (.transport "refused")⟩ [] "ns/s" ["10.0.0.9"]
      ⟨"s", "ns", [("metallb.universe.tf/upnp-enabled", "true")],
        [⟨80, "TCP"⟩, ⟨443, "TCP"⟩]⟩ (by decide)⟩

/-- C2: for every pool configuration and node-state snapshot, the elected
owner — the head of `getEligibleNodes` — is a member of the candidate set no
candidate is lexicographically below; there is no owner exactly when the
candidate set is empty; and the local node is authoritative
(`isAuthoritative`, the election verdict of `ShouldAnnounce`) iff it equals
that elected owner. -/
theorem claim2_election_smallest_candidate (advs : List UPnPAdv)
    (nodes : List (String × Node)) (myNode : String) :
    (getEligibleNodes advs nodes = [] ↔ ∀ n, ¬ IsCandidate advs nodes n)
    ∧ (∀ owner, (getEligibleNodes advs nodes).head? = some owner →
        IsCandidate advs nodes owner ∧
          ∀ n, IsCandidate advs nodes n → goStrLe owner n = true)
    ∧ (isAuthoritative myNode advs nodes = true ↔
        (getEligibleNodes advs nodes).head? = some myNode) := by
  have hmem := mem_elig_iff_candidate advs nodes
  cases hL : advs.foldl (fun acc adv => acc ++ eligibleFromAdv nodes adv) [] with
  | nil =>
    have hE : getEligibleNodes advs nodes = [] := by
      simp [getEligibleNodes, hL, selSort, selSortGo]
    refine ⟨?_, ?_, ?_⟩
    · simp only [hE, true_iff]
      intro n hc
      have := (hmem n).mpr hc
      rw [hL] at this
      cases this
    · intro owner h
      rw [hE] at h
      cases h
    · simp [isAuthoritative, hE]
  | cons x xs =>
    have hE : getEligibleNodes advs nodes
        = (selMin x xs).1 :: selSortGo xs.length (selMin x xs).2 := by
      rw [getEligibleNodes, hL, selSort_cons]
    have hcand : ∀ n, n ∈ x :: xs ↔ IsCandidate advs nodes n := by
      intro n
      rw [← hL]
      exact hmem n
    have hownermem : IsCandidate advs nodes (selMin x xs).1 :=
      (hcand _).mp (selMin_fst_mem xs x)
    have howner_min : ∀ n, IsCandidate advs nodes n → goStrLe (selMin x xs).1 n = true := by
      intro n hc
      have hn : n ∈ x :: xs := (hcand n).mpr hc
      have := selMin_fst_min xs x n hn
      simp [goStrLe, this]
    refine ⟨?_, ?_, ?_⟩
    · constructor
      · intro h
        rw [hE] at h
        cases h
      · intro h
        exact (h _ hownermem).elim
    · intro owner h
      rw [hE] at h
      simp only [List.head?_cons, Option.some.injEq] at h
      subst h
      exact ⟨hownermem, howner_min⟩
    · unfold isAuthoritative
      rw [hE]
      simp [beq_iff_eq]

/-- Witness for C2 at a concrete pool: candidates are b and c (a exists but
is not ready), b is elected, and b is authoritative. -/
theorem claim2_election_smallest_candidate_witness :
    IsCandidate [⟨true, ["c", "b", "a"]⟩]
      [("a", ⟨[⟨"Ready", "False"⟩], []⟩), ("b", ⟨[⟨"Ready", "True"⟩], []⟩),
        ("c", ⟨[⟨"Ready", "True"⟩], []⟩)] "b"
    ∧ (getEligibleNodes [⟨true, ["c", "b", "a"]⟩]
        [("a", ⟨[⟨"Ready", "False"⟩], []⟩), ("b", ⟨[⟨"Ready", "True"⟩], []⟩),
          ("c", ⟨[⟨"Ready", "True"⟩], []⟩)]).head? = some "b"
    ∧ isAuthoritative "b" [⟨true, ["c", "b", "a"]⟩]
        [("a", ⟨[⟨"Ready", "False"⟩], []⟩), ("b", ⟨[⟨"Ready", "True"⟩], []⟩),
          ("c", ⟨[⟨"Ready", "True"⟩], []⟩)] = true := by
  have h := claim2_election_smallest_candidate [⟨true, ["c", "b", "a"]⟩]
    [("a", ⟨[⟨"Ready", "False"⟩], []⟩), ("b", ⟨[⟨"Ready", "True"⟩], []⟩),
      ("c", ⟨[⟨"Ready", "True"⟩], []⟩)] "b"
  have hb : (getEligibleNodes [⟨true, ["c", "b", "a"]⟩]
      [("a", ⟨[⟨"Ready", "False"⟩], []⟩), ("b", ⟨[⟨"Ready", "True"⟩], []⟩),
        ("c", ⟨[⟨"Ready", "True"⟩], []⟩)]).head? = some "b" := by decide
  exact ⟨(h.2.1 "b" hb).1, hb, h.2.2.mpr hb⟩

set_option maxRecDepth 8192 in
/-- C4: the claim says fault classification depends only on the device's
structured fault code, never on substring search of the message text. The
code violates this: two faults with the same structured code 714 but
different description text are classified differently by the 'no such entry'
test of `DeletePortMapping`, an unrelated fault (code 718) whose free text
merely contains the code name is classified as benign (the delete returns
success), and the 'index out of range' test of `GetPortMappings` behaves the
same way on code 713. -/
theorem claim4_fault_classification_is_textual :
    isNoSuchEntryErr (DevError.errString (.soapFault 714 "NoSuchEntryInArray")) = true
    ∧ isNoSuchEntryErr (DevError.errString (.soapFault 714 "the specified mapping was not found")) = false
    ∧ isNoSuchEntryErr (DevError.errString (.soapFault 718 "ConflictInMappingEntry: see NoSuchEntryInArray")) = true
    ∧ (DeletePortMapping (fun _ _ => some (.soapFault 718 "ConflictInMappingEntry: see NoSuchEntryInArray")) 80 "tcp").1 = .ok ()
    ∧ isEndOfListErr (DevError.errString (.soapFault 713 "SpecifiedArrayIndexInvalid")) = true
    ∧ isEndOfListErr (DevError.errString (.soapFault 713 "index out of range")) = false := by
  decide

set_option maxRecDepth 8192 in
/-- C5: the claim says that with several answering gateway devices discovery
selects the lexicographically smallest location, independent of answer order.
The code takes `clients[0]`, i.e. whichever answered first: with the same two
devices answering in different orders the selected device differs, and when
the lexicographically larger location answers first it is the one selected
(for both protocol versions). -/
theorem claim5_discovery_takes_first_responder :
    discoverIGD2 [⟨"http://b.example/desc.xml"⟩, ⟨"http://a.example/desc.xml"⟩]
      = .ok ⟨"http://b.example/desc.xml"⟩
    ∧ goStrLt "http://a.example/desc.xml" "http://b.example/desc.xml" = true
    ∧ discoverIGD2 [⟨"http://a.example/desc.xml"⟩, ⟨"http://b.example/desc.xml"⟩]
      ≠ discoverIGD2 [⟨"http://b.example/desc.xml"⟩, ⟨"http://a.example/desc.xml"⟩]
    ∧ discoverIGD1 [⟨"http://b.example/desc.xml"⟩, ⟨"http://a.example/desc.xml"⟩]
      = .ok ⟨"http://b.example/desc.xml"⟩ := by
  decide

set_option maxRecDepth 8192 in
/-- C6: the claim says `deleteMapping` returns success exactly when the device
reports the distinguished 'no such entry' fault, and a `MappingError` for
every other fault. Because the code classifies by substring search of the
message text, a fault carrying the distinguished structured code 714 but a
nonstandard description text is surfaced as an error; only the standard
description text is swallowed as success, while a transport fault does
surface as an error. -/
theorem claim6_idempotent_delete_depends_on_text :
    (DeletePortMapping (fun _ _ => some (.soapFault 714 "entry absent")) 8080 "tcp").1
      = .error ("failed to delete port mapping: " ++ DevError.errString (.soapFault 714 "entry absent"))
    ∧ (DeletePortMapping (fun _ _ => some (.soapFault 714 "NoSuchEntryInArray")) 8080 "tcp").1 = .ok ()
    ∧ (DeletePortMapping (fun _ _ => some (.transport "connection refused")) 8080 "tcp").1
      = .error "failed to delete port mapping: connection refused" := by
  decide

/-- C7: fail-fast validation. A nil mapping and any mapping or delete request
whose protocol is not case-insensitively tcp/udp yields a validation error
with an empty device-action trace: no network call is issued, for any device
behaviour. -/
theorem claim7_failfast_validation (addResp : PortMapping → Option DevError)
    (delResp : Nat → String → Option DevError) (mp : PortMapping) (port : Nat) (p : String)
    (hmp : goToUpper mp.protocol ≠ "TCP" ∧ goToUpper mp.protocol ≠ "UDP")
    (hp : goToUpper p ≠ "TCP" ∧ goToUpper p ≠ "UDP") :
    AddPortMapping addResp none = (.error "port mapping cannot be nil", [])
    ∧ (∃ msg, AddPortMapping addResp (some mp) = (.error msg, []))
    ∧ (∃ msg, DeletePortMapping delResp port p = (.error msg, [])) := by
  obtain ⟨hmp1, hmp2⟩ := hmp
  obtain ⟨hp1, hp2⟩ := hp
  refine ⟨rfl, ⟨"invalid protocol: " ++ mp.protocol ++ " (must be TCP or UDP)", ?_⟩,
    ⟨"invalid protocol: " ++ p ++ " (must be TCP or UDP)", ?_⟩⟩
  · simp [AddPortMapping, hmp1, hmp2]
  · simp [DeletePortMapping, hp1, hp2]

/-- Witness for C7 at a concrete invalid protocol. -/
theorem claim7_failfast_validation_witness :
    AddPortMapping (fun _ => none) none = (.error "port mapping cannot be nil", [])
    ∧ (∃ msg, AddPortMapping (fun _ => none)
        (some ⟨8080, 80, "192.168.1.100", "INVALID", "Test", 0⟩) = (.error msg, []))
    ∧ (∃ msg, DeletePortMapping (fun _ _ => none) 8080 "INVALID" = (.error msg, [])) :=
  claim7_failfast_validation (fun _ => none) (fun _ _ => none)
    ⟨8080, 80, "192.168.1.100", "INVALID", "Test", 0⟩ 8080 "INVALID"
    (by decide) (by decide)

/-- C10: if the service does not carry the upnp-enabled annotation with value
"true" (case-insensitively), `SetBalancer` returns nil immediately: the
recorded mapping table is returned entirely unchanged and the event trace is
empty, so no deletion of previously recorded mappings is attempted. -/
theorem claim10_disabled_setbalancer_is_noop (dev : DevOracle) (table : MappingTable)
    (name : String) (lbIPs : List String) (svc : Service)
    (h : isUPnPEnabled svc = false) :
    SetBalancer dev table name lbIPs svc = (table, [], .ok ()) := by
  simp [SetBalancer, h]

/-- Witness for C10: a service without the annotation, while the table still
records a mapping for its key from an earlier apply. -/
theorem claim10_disabled_setbalancer_is_noop_witness :
    SetBalancer ⟨fun _ => none, fun _ _ => none⟩
      [("ns/svc", [⟨80, 80, "10.0.0.1", "tcp", "d", 0⟩])] "ns/svc" ["10.0.0.1"]
      ⟨"svc", "ns", [("other", "true")], [⟨80, "TCP"⟩]⟩
      = ([("ns/svc", [⟨80, 80, "10.0.0.1", "tcp", "d", 0⟩])], [], .ok ()) :=
  claim10_disabled_setbalancer_is_noop _ _ _ _ _ (by decide)

end MlbUpnp
